import Mathlib

/-!
Verification of the pystd Unicode case-conversion table generators,
`tools/genlower.py` and `tools/genupper.py`.

Both scripts scan every code point `i` in `[0, 0x110000)`, apply the host
case conversion (`str.lower` for `genlower.py`, `str.upper` for
`genupper.py`) to the one-character string `chr(i)`, and print four C
tables: a multi-entry table of the code points whose cased form is not a
single code point, and a single-entry table of the code points at or above
`0x80` whose cased form is a single, different code point.

The host case-conversion routine is external Unicode data, not part of the
repository, so the builders are embedded parametrically over a mapping
`cm : Nat → List Nat` sending a code point to the list of code points of
its cased string.  Facts about specific values of the host mapping that a
statement needs (for example that CPython's `str.lower` sends `U+1E9E` to
the single code point `U+00DF`) are modelled by small concrete mappings,
documented where they are defined.
-/

/-- Python `chr(i)` viewed as the list of code points of the resulting
string.  For every `i` in `[0, 0x110000)`, CPython's `chr(i)` is a string
of exactly one code point, namely `i` itself; this definition models that
host guarantee, which is what the scripts' `assert(len(string) == 1)`
checks. -/
def strOfCodePoint (i : Nat) : List Nat := [i]

/-- The `multichars` list built by the first loop of either script: scan
all of `[0, 0x110000)` and record `(i, cm i)` whenever the cased string
does not consist of exactly one code point. -/
def multichars (cm : Nat → List Nat) : List (Nat × List Nat) :=
  (List.range 0x110000).filterMap fun i =>
    if (cm i).length ≠ 1 then some (i, cm i) else none

/-- The `diffs` list built by the second loop of either script: scan
`[128, 0x110000)` and record `(i, ord upstring)` whenever the cased string
is exactly one code point that differs from `i`. -/
def diffs (cm : Nat → List Nat) : List (Nat × Nat) :=
  (List.range' 128 (0x110000 - 128)).filterMap fun i =>
    if (cm i).length = 1 then
      if cm i ≠ [i] then some (i, (cm i).headD 0) else none
    else none

/-- One bounded run of the padding loop of the multi-entry emitter: while
the entry is shorter than three slots and fuel remains, append a zero.
Each iteration of the source loop grows the entry by one, so the loop
body runs at most three times; `padEntry` supplies that bound as fuel. -/
def padLoop : Nat → List Nat → List Nat
  | 0, entry => entry
  | fuel + 1, entry =>
    if entry.length < 3 then padLoop fuel (entry ++ [0]) else entry

/-- The padding loop of the multi-entry emitter:
`while len(entry) < 3: entry.append(0)`. -/
def padEntry (entry : List Nat) : List Nat :=
  padLoop 3 entry

/-- One emitted multi-entry line, `    \x7bi, \x7bo0, o1, o2\x7d\x7d,`:
the entry is the cased string's code points, zero-padded while shorter
than three slots, comma-joined. -/
def fmtMultiEntry (p : Nat × List Nat) : String :=
  "    \x7b" ++ toString p.1 ++ ", \x7b" ++
    String.intercalate ", " ((padEntry p.2).map toString) ++ "\x7d\x7d,"

/-- One emitted single-entry line, `    \x7bfrom, to\x7d,`. -/
def fmtSingleEntry (p : Nat × Nat) : String :=
  "    \x7b" ++ toString p.1 ++ ", " ++ toString p.2 ++ "\x7d,"

/-- The standard-output lines printed by `genlower.py`, with the host's
`str.lower` abstracted as `lower`.  Each `print` contributes one line
(`print('\nDifferences')` contributes an empty line followed by
`Differences`); each table loop appends one formatted line per entry. -/
def genlowerOut (lower : Nat → List Nat) : List String :=
  let out := ["Multiple chars."]
  let out := out ++ ["// clang-format off"]
  let out := out ++
    ["#define NUM_LOWERCASING_MULTICHAR_ENTRIES " ++ toString (multichars lower).length]
  let out := out ++
    ["const UnicodeConversionMultiChar lowercasing_multi[NUM_LOWERCASING_MULTICHAR_ENTRIES] = \x7b"]
  let out := (multichars lower).foldl (fun o p => o ++ [fmtMultiEntry p]) out
  let out := out ++ ["\x7d;"]
  let out := out ++ ["// clang-format on"]
  let out := out ++ ["", "Differences"]
  let out := out ++ ["// clang-format off"]
  let out := out ++
    ["#define NUM_LOWERCASING_SINGLE_ENTRIES " ++ toString (diffs lower).length]
  let out := out ++
    ["const UnicodeConversionSingleChar lowercasing_single[NUM_LOWERCASING_SINGLE_ENTRIES] = \x7b"]
  let out := (diffs lower).foldl (fun o p => o ++ [fmtSingleEntry p]) out
  let out := out ++ ["\x7d;"]
  let out := out ++ ["// clang-format on"]
  out

/-- The standard-output lines printed by `genupper.py`, with the host's
`str.upper` abstracted as `upper`.  Structure as in `genlowerOut`. -/
def genupperOut (upper : Nat → List Nat) : List String :=
  let out := ["Multiple chars."]
  let out := out ++ ["// clang-format off"]
  let out := out ++
    ["#define NUM_UPPERCASING_MULTICHAR_ENTRIES " ++ toString (multichars upper).length]
  let out := out ++
    ["const UnicodeConversionMultiChar uppercasing_multi[NUM_UPPERCASING_MULTICHAR_ENTRIES] = \x7b"]
  let out := (multichars upper).foldl (fun o p => o ++ [fmtMultiEntry p]) out
  let out := out ++ ["\x7d;"]
  let out := out ++ ["// clang-format on"]
  let out := out ++ ["", "Differences"]
  let out := out ++ ["// clang-format off"]
  let out := out ++
    ["#define NUM_UPPERCASING_SINGLE_ENTRIES " ++ toString (diffs upper).length]
  let out := out ++
    ["const UnicodeConversionSingleChar uppercasing_single[NUM_UPPERCASING_SINGLE_ENTRIES] = \x7b"]
  let out := (diffs upper).foldl (fun o p => o ++ [fmtSingleEntry p]) out
  let out := out ++ ["\x7d;"]
  let out := out ++ ["// clang-format on"]
  out

/-- The spec's generic builder (spec §2: the two scripts "should be the
same generic routine parameterized by conversion direction"): the body of
`genlowerOut` with the case mapping and the two name strings
`lowercasing`/`LOWERCASING` abstracted as parameters. -/
def genScript (cm : Nat → List Nat) (dirname DIRNAME : String) : List String :=
  let out := ["Multiple chars."]
  let out := out ++ ["// clang-format off"]
  let out := out ++
    ["#define NUM_" ++ DIRNAME ++ "_MULTICHAR_ENTRIES " ++ toString (multichars cm).length]
  let out := out ++
    ["const UnicodeConversionMultiChar " ++ dirname ++ "_multi[NUM_" ++ DIRNAME ++ "_MULTICHAR_ENTRIES] = \x7b"]
  let out := (multichars cm).foldl (fun o p => o ++ [fmtMultiEntry p]) out
  let out := out ++ ["\x7d;"]
  let out := out ++ ["// clang-format on"]
  let out := out ++ ["", "Differences"]
  let out := out ++ ["// clang-format off"]
  let out := out ++
    ["#define NUM_" ++ DIRNAME ++ "_SINGLE_ENTRIES " ++ toString (diffs cm).length]
  let out := out ++
    ["const UnicodeConversionSingleChar " ++ dirname ++ "_single[NUM_" ++ DIRNAME ++ "_SINGLE_ENTRIES] = \x7b"]
  let out := (diffs cm).foldl (fun o p => o ++ [fmtSingleEntry p]) out
  let out := out ++ ["\x7d;"]
  let out := out ++ ["// clang-format on"]
  out

/-- The first loop with its `assert(len(string) == 1)` modelled: `none`
represents the fatal assertion failure aborting the run. -/
def multicharsChecked (cm : Nat → List Nat) : Option (List (Nat × List Nat)) :=
  (List.range 0x110000).foldlM (fun ms i =>
    if (strOfCodePoint i).length = 1 then
      if (cm i).length ≠ 1 then some (ms ++ [(i, cm i)]) else some ms
    else none) []

/-- The second loop with its `assert(len(string) == 1)` modelled, as in
`multicharsChecked`. -/
def diffsChecked (cm : Nat → List Nat) : Option (List (Nat × Nat)) :=
  (List.range' 128 (0x110000 - 128)).foldlM (fun ds i =>
    if (strOfCodePoint i).length = 1 then
      if (cm i).length = 1 then
        if cm i ≠ [i] then some (ds ++ [(i, (cm i).headD 0)]) else some ds
      else some ds
    else none) []

/-- The whole builder run with assertions modelled: both passes may abort,
and on success the output lines are assembled from the recorded tables. -/
def genScriptChecked (cm : Nat → List Nat) (dirname DIRNAME : String) :
    Option (List String) := do
  let ms ← multicharsChecked cm
  let out := ["Multiple chars."]
  let out := out ++ ["// clang-format off"]
  let out := out ++
    ["#define NUM_" ++ DIRNAME ++ "_MULTICHAR_ENTRIES " ++ toString ms.length]
  let out := out ++
    ["const UnicodeConversionMultiChar " ++ dirname ++ "_multi[NUM_" ++ DIRNAME ++ "_MULTICHAR_ENTRIES] = \x7b"]
  let out := ms.foldl (fun o p => o ++ [fmtMultiEntry p]) out
  let out := out ++ ["\x7d;"]
  let out := out ++ ["// clang-format on"]
  let out := out ++ ["", "Differences"]
  let out := out ++ ["// clang-format off"]
  let ds ← diffsChecked cm
  let out := out ++
    ["#define NUM_" ++ DIRNAME ++ "_SINGLE_ENTRIES " ++ toString ds.length]
  let out := out ++
    ["const UnicodeConversionSingleChar " ++ dirname ++ "_single[NUM_" ++ DIRNAME ++ "_SINGLE_ENTRIES] = \x7b"]
  let out := ds.foldl (fun o p => o ++ [fmtSingleEntry p]) out
  let out := out ++ ["\x7d;"]
  let out := out ++ ["// clang-format on"]
  pure out

/-- A code point is recorded in the multi-entry table when some pair with
that first component is in `multichars`. -/
def recordedMulti (cm : Nat → List Nat) (i : Nat) : Prop :=
  ∃ s, (i, s) ∈ multichars cm

/-- A code point is recorded in the single-entry table when some pair with
that first component is in `diffs`. -/
def recordedSingle (cm : Nat → List Nat) (i : Nat) : Prop :=
  ∃ j, (i, j) ∈ diffs cm

/-- Host-data model: CPython's `str.lower` maps `U+1E9E` (LATIN CAPITAL
LETTER SHARP S) to the single code point `U+00DF` (ß) — the expansion
`ß → SS` happens under `str.upper`, not `str.lower`.  All other code
points are taken as self-mapping; only the value at `0x1E9E` matters to
the statements that use this mapping. -/
def lowerAtSharpS : Nat → List Nat := fun i => if i = 0x1E9E then [0xDF] else [i]

/-- Host-data model: CPython's `str.lower` maps `'A'` (0x41) to `'a'`
(0x61), a single differing code point below `0x80`.  All other code points
are taken as self-mapping; only the value at `0x41` matters to the
statements that use this mapping. -/
def lowerAtA : Nat → List Nat := fun i => if i = 0x41 then [0x61] else [i]

/-- Host-data model: CPython's `str.lower` maps `U+0130` (LATIN CAPITAL
LETTER I WITH DOT ABOVE) to the two code points `U+0069 U+0307`; all
other code points are taken as self-mapping.  This mapping satisfies the
empirical host bound that every cased string has one to three code
points. -/
def padWitnessMap : Nat → List Nat := fun i => if i = 0x130 then [0x69, 0x307] else [i]

/-- Host-data model: CPython's `str.upper` maps `U+00FF` (ÿ) to the single
code point `U+0178` (Ÿ); all other code points are taken as
self-mapping. -/
def singleWitnessMap : Nat → List Nat := fun i => if i = 0xFF then [0x178] else [i]

/-- A hypothetical case mapping whose output at code point `5` has four
code points, used to exercise the recording loop beyond the three-slot
capacity. -/
def longWitnessMap : Nat → List Nat := fun i => if i = 5 then [1, 2, 3, 4] else [i]

/-- The everywhere-self-mapping case mapping. -/
def idMap : Nat → List Nat := fun i => [i]

/-! Helper lemmas. -/

/-- Closed form of the padding loop: append zeros up to length three.
A list of length at least three leaves the loop untouched, so the fuel
bound of `padEntry` is never reached with the guard still true. -/
theorem padEntry_eq (entry : List Nat) :
    padEntry entry = entry ++ List.replicate (3 - entry.length) 0 := by
  match entry with
  | [] => rfl
  | [a] => rfl
  | [a, b] => rfl
  | [a, b, c] => simp [padEntry, padLoop]
  | a :: b :: c :: d :: rest =>
    have h : ¬ (a :: b :: c :: d :: rest).length < 3 := by
      simp [List.length_cons]
    have h0 : 3 - (a :: b :: c :: d :: rest).length = 0 := by
      simp [List.length_cons]
    unfold padEntry padLoop
    rw [if_neg h, h0]
    simp

/-- Membership in the multi-entry list. -/
theorem mem_multichars {cm : Nat → List Nat} {i : Nat} {s : List Nat} :
    (i, s) ∈ multichars cm ↔ i < 0x110000 ∧ cm i = s ∧ s.length ≠ 1 := by
  unfold multichars
  rw [List.mem_filterMap]
  constructor
  · rintro ⟨a, ha, hfa⟩
    rw [List.mem_range] at ha
    by_cases h : (cm a).length ≠ 1
    · rw [if_pos h, Option.some_inj, Prod.mk.injEq] at hfa
      obtain ⟨rfl, rfl⟩ := hfa
      exact ⟨ha, rfl, h⟩
    · rw [if_neg h] at hfa
      exact absurd hfa (by simp)
  · rintro ⟨hi, hcm, hlen⟩
    refine ⟨i, List.mem_range.mpr hi, ?_⟩
    rw [hcm, if_pos hlen]

/-- Membership in the single-entry list. -/
theorem mem_diffs {cm : Nat → List Nat} {i j : Nat} :
    (i, j) ∈ diffs cm ↔ 128 ≤ i ∧ i < 0x110000 ∧ cm i = [j] ∧ j ≠ i := by
  unfold diffs
  rw [List.mem_filterMap]
  constructor
  · rintro ⟨a, ha, hfa⟩
    rw [List.mem_range'_1] at ha
    by_cases h1 : (cm a).length = 1
    · obtain ⟨x, hx⟩ := List.length_eq_one.mp h1
      by_cases h2 : cm a ≠ [a]
      · rw [if_pos h1, if_pos h2, Option.some_inj, Prod.mk.injEq] at hfa
        obtain ⟨rfl, rfl⟩ := hfa
        refine ⟨ha.1, by omega, by simp [hx], ?_⟩
        rw [hx] at h2 ⊢
        simpa using fun he => h2 (by simp [he])
      · rw [if_pos h1, if_neg h2] at hfa
        exact absurd hfa (by simp)
    · rw [if_neg h1] at hfa
      exact absurd hfa (by simp)
  · rintro ⟨h128, hi, hcm, hne⟩
    refine ⟨i, List.mem_range'_1.mpr ⟨h128, by omega⟩, ?_⟩
    rw [hcm]
    simp [hne]

/-- A code point is recorded in the multi-entry table exactly when it is in
range and its cased string is not a single code point. -/
theorem recordedMulti_iff {cm : Nat → List Nat} {i : Nat} :
    recordedMulti cm i ↔ i < 0x110000 ∧ (cm i).length ≠ 1 := by
  unfold recordedMulti
  constructor
  · rintro ⟨s, hs⟩
    rw [mem_multichars] at hs
    exact ⟨hs.1, hs.2.1 ▸ hs.2.2⟩
  · rintro ⟨hi, hlen⟩
    exact ⟨cm i, mem_multichars.mpr ⟨hi, rfl, hlen⟩⟩

/-- A code point is recorded in the single-entry table exactly when it is
at or above `0x80`, in range, and its cased string is a single code point
different from itself. -/
theorem recordedSingle_iff {cm : Nat → List Nat} {i : Nat} :
    recordedSingle cm i ↔
      128 ≤ i ∧ i < 0x110000 ∧ (cm i).length = 1 ∧ cm i ≠ [i] := by
  unfold recordedSingle
  constructor
  · rintro ⟨j, hj⟩
    rw [mem_diffs] at hj
    obtain ⟨h128, hi, hcm, hne⟩ := hj
    refine ⟨h128, hi, by simp [hcm], ?_⟩
    rw [hcm]
    simpa using fun he => hne (by simp [he])
  · rintro ⟨h128, hi, hlen, hne⟩
    obtain ⟨x, hx⟩ := List.length_eq_one.mp hlen
    refine ⟨x, mem_diffs.mpr ⟨h128, hi, hx, ?_⟩⟩
    rw [hx] at hne
    simpa using fun he => hne (by simp [he])

/-- Emitting one line per entry onto an output accumulator appends the
formatted entries. -/
theorem foldl_emit {α : Type} (fmt : α → String) (l : List α) (out : List String) :
    l.foldl (fun o e => o ++ [fmt e]) out = out ++ l.map fmt := by
  induction l generalizing out with
  | nil => simp
  | cons a l ih => simp [ih]

/-- A monadic fold whose step never fails computes the plain fold. -/
theorem foldlM_of_step_some {α β : Type} (step : β → α → Option β) (g : β → α → β)
    (hstep : ∀ b a, step b a = some (g b a)) (l : List α) :
    ∀ acc : β, l.foldlM step acc = some (l.foldl g acc) := by
  induction l with
  | nil => intro acc; simp
  | cons a l ih =>
    intro acc
    rw [List.foldlM_cons, hstep]
    exact ih (g acc a)

/-- The first loop's conditional appends compute a `filterMap`. -/
theorem foldl_filterMap_multi (cm : Nat → List Nat) (l : List Nat) :
    ∀ acc, l.foldl (fun ms i => if (cm i).length ≠ 1 then ms ++ [(i, cm i)] else ms) acc
      = acc ++ l.filterMap (fun i => if (cm i).length ≠ 1 then some (i, cm i) else none) := by
  induction l with
  | nil => intro acc; simp
  | cons a l ih =>
    intro acc
    rw [List.foldl_cons, ih]
    by_cases hc : (cm a).length ≠ 1 <;> simp [hc, List.filterMap_cons]

/-- The second loop's conditional appends compute a `filterMap`. -/
theorem foldl_filterMap_single (cm : Nat → List Nat) (l : List Nat) :
    ∀ acc, l.foldl (fun ds i =>
        if (cm i).length = 1 then
          if cm i ≠ [i] then ds ++ [(i, (cm i).headD 0)] else ds
        else ds) acc
      = acc ++ l.filterMap (fun i =>
          if (cm i).length = 1 then
            if cm i ≠ [i] then some (i, (cm i).headD 0) else none
          else none) := by
  induction l with
  | nil => intro acc; simp
  | cons a l ih =>
    intro acc
    rw [List.foldl_cons, ih]
    by_cases h1 : (cm a).length = 1
    · by_cases h2 : cm a ≠ [a] <;> simp [h1, h2, List.filterMap_cons]
    · simp [h1, List.filterMap_cons]

/-- The checked first loop never hits the assertion branch and records
exactly the `multichars` list. -/
theorem multicharsChecked_eq (cm : Nat → List Nat) :
    multicharsChecked cm = some (multichars cm) := by
  have h : ∀ l : List Nat,
      (l.foldlM (fun ms i =>
        if (strOfCodePoint i).length = 1 then
          if (cm i).length ≠ 1 then some (ms ++ [(i, cm i)]) else some ms
        else none) ([] : List (Nat × List Nat)) : Option _)
      = some (l.filterMap fun i =>
          if (cm i).length ≠ 1 then some (i, cm i) else none) := by
    intro l
    rw [foldlM_of_step_some _
      (fun ms i => if (cm i).length ≠ 1 then ms ++ [(i, cm i)] else ms)
      (by
        intro b a
        by_cases hc : (cm a).length ≠ 1
        · simp [strOfCodePoint, hc]
        · simp [strOfCodePoint, hc]),
      foldl_filterMap_multi]
    simp
  exact h (List.range 0x110000)

/-- The checked second loop never hits the assertion branch and records
exactly the `diffs` list. -/
theorem diffsChecked_eq (cm : Nat → List Nat) :
    diffsChecked cm = some (diffs cm) := by
  have h : ∀ l : List Nat,
      (l.foldlM (fun ds i =>
        if (strOfCodePoint i).length = 1 then
          if (cm i).length = 1 then
            if cm i ≠ [i] then some (ds ++ [(i, (cm i).headD 0)]) else some ds
          else some ds
        else none) ([] : List (Nat × Nat)) : Option _)
      = some (l.filterMap fun i =>
          if (cm i).length = 1 then
            if cm i ≠ [i] then some (i, (cm i).headD 0) else none
          else none) := by
    intro l
    rw [foldlM_of_step_some _
      (fun ds i =>
        if (cm i).length = 1 then
          if cm i ≠ [i] then ds ++ [(i, (cm i).headD 0)] else ds
        else ds)
      (by
        intro b a
        by_cases h1 : (cm a).length = 1
        · by_cases h2 : cm a ≠ [a] <;> simp [strOfCodePoint, h1, h2]
        · simp [strOfCodePoint, h1]),
      foldl_filterMap_single]
    simp
  exact h (List.range' 128 (0x110000 - 128))

/-- The checked builder run never aborts and produces the unchecked
output. -/
theorem genScriptChecked_eq (cm : Nat → List Nat) (dirname DIRNAME : String) :
    genScriptChecked cm dirname DIRNAME = some (genScript cm dirname DIRNAME) := by
  simp only [genScriptChecked, genScript, multicharsChecked_eq, diffsChecked_eq]
  rfl

/-- The emission sequence shared by both scripts, decomposed into its
table segments, for arbitrary recorded tables and name-bearing lines. -/
theorem emitTables_eq (ms : List (Nat × List Nat)) (ds : List (Nat × Nat))
    (defMulti declMulti defSingle declSingle : String) :
    (let out := ["Multiple chars."]
     let out := out ++ ["// clang-format off"]
     let out := out ++ [defMulti]
     let out := out ++ [declMulti]
     let out := ms.foldl (fun o p => o ++ [fmtMultiEntry p]) out
     let out := out ++ ["\x7d;"]
     let out := out ++ ["// clang-format on"]
     let out := out ++ ["", "Differences"]
     let out := out ++ ["// clang-format off"]
     let out := out ++ [defSingle]
     let out := out ++ [declSingle]
     let out := ds.foldl (fun o p => o ++ [fmtSingleEntry p]) out
     let out := out ++ ["\x7d;"]
     let out := out ++ ["// clang-format on"]
     out)
    = ["Multiple chars.", "// clang-format off", defMulti, declMulti]
      ++ ms.map fmtMultiEntry ++
      ["\x7d;", "// clang-format on", "", "Differences", "// clang-format off",
       defSingle, declSingle]
      ++ ds.map fmtSingleEntry ++
      ["\x7d;", "// clang-format on"] := by
  simp [foldl_emit]

/-- The lower-direction output decomposed into its table segments. -/
theorem genlowerOut_segments (cm : Nat → List Nat) :
    genlowerOut cm =
      ["Multiple chars.", "// clang-format off",
       "#define NUM_LOWERCASING_MULTICHAR_ENTRIES " ++ toString (multichars cm).length,
       "const UnicodeConversionMultiChar lowercasing_multi[NUM_LOWERCASING_MULTICHAR_ENTRIES] = \x7b"]
      ++ (multichars cm).map fmtMultiEntry ++
      ["\x7d;", "// clang-format on", "", "Differences", "// clang-format off",
       "#define NUM_LOWERCASING_SINGLE_ENTRIES " ++ toString (diffs cm).length,
       "const UnicodeConversionSingleChar lowercasing_single[NUM_LOWERCASING_SINGLE_ENTRIES] = \x7b"]
      ++ (diffs cm).map fmtSingleEntry ++
      ["\x7d;", "// clang-format on"] :=
  emitTables_eq (multichars cm) (diffs cm)
    ("#define NUM_LOWERCASING_MULTICHAR_ENTRIES " ++ toString (multichars cm).length)
    "const UnicodeConversionMultiChar lowercasing_multi[NUM_LOWERCASING_MULTICHAR_ENTRIES] = \x7b"
    ("#define NUM_LOWERCASING_SINGLE_ENTRIES " ++ toString (diffs cm).length)
    "const UnicodeConversionSingleChar lowercasing_single[NUM_LOWERCASING_SINGLE_ENTRIES] = \x7b"

/-- The upper-direction output decomposed into its table segments. -/
theorem genupperOut_segments (cm : Nat → List Nat) :
    genupperOut cm =
      ["Multiple chars.", "// clang-format off",
       "#define NUM_UPPERCASING_MULTICHAR_ENTRIES " ++ toString (multichars cm).length,
       "const UnicodeConversionMultiChar uppercasing_multi[NUM_UPPERCASING_MULTICHAR_ENTRIES] = \x7b"]
      ++ (multichars cm).map fmtMultiEntry ++
      ["\x7d;", "// clang-format on", "", "Differences", "// clang-format off",
       "#define NUM_UPPERCASING_SINGLE_ENTRIES " ++ toString (diffs cm).length,
       "const UnicodeConversionSingleChar uppercasing_single[NUM_UPPERCASING_SINGLE_ENTRIES] = \x7b"]
      ++ (diffs cm).map fmtSingleEntry ++
      ["\x7d;", "// clang-format on"] :=
  emitTables_eq (multichars cm) (diffs cm)
    ("#define NUM_UPPERCASING_MULTICHAR_ENTRIES " ++ toString (multichars cm).length)
    "const UnicodeConversionMultiChar uppercasing_multi[NUM_UPPERCASING_MULTICHAR_ENTRIES] = \x7b"
    ("#define NUM_UPPERCASING_SINGLE_ENTRIES " ++ toString (diffs cm).length)
    "const UnicodeConversionSingleChar uppercasing_single[NUM_UPPERCASING_SINGLE_ENTRIES] = \x7b"

/-! Claim theorems. -/

/-- Claim C1 (counterexample): with the host lowercase data at `U+1E9E`
modelled by `lowerAtSharpS` (CPython's `str.lower` maps `0x1E9E` to the
single code point `0xDF`), the code point `0x1E9E` is NOT recorded in the
lowercase multi-entry table and IS recorded in the single-entry table —
the opposite of the claim. -/
theorem lower_sharpS_counterexample :
    ¬ recordedMulti lowerAtSharpS 0x1E9E ∧ recordedSingle lowerAtSharpS 0x1E9E := by
  constructor
  · rw [recordedMulti_iff]; decide
  · rw [recordedSingle_iff]; decide

/-- Claim C1 (amended): for the lowercase direction, whose host mapping
sends `0x1E9E` to the single code point `0xDF`, the code point `0x1E9E`
is recorded in the single-entry table and not in the multi-entry
table. -/
theorem lower_sharpS_single (cm : Nat → List Nat) (h : cm 0x1E9E = [0xDF]) :
    recordedSingle cm 0x1E9E ∧ ¬ recordedMulti cm 0x1E9E := by
  constructor
  · rw [recordedSingle_iff, h]
    exact ⟨by decide, by decide, by decide, by decide⟩
  · rw [recordedMulti_iff, h]
    simp

/-- Witness for the amended claim C1 at the modelled host mapping. -/
theorem lower_sharpS_single_witness :
    lowerAtSharpS 0x1E9E = [0xDF] ∧
      (recordedSingle lowerAtSharpS 0x1E9E ∧ ¬ recordedMulti lowerAtSharpS 0x1E9E) :=
  ⟨by decide, lower_sharpS_single lowerAtSharpS (by decide)⟩

/-- Claim C2 (counterexample): with the host lowercase data at `'A'`
modelled by `lowerAtA` (`0x41` maps to the single differing code point
`0x61`), the code point `0x41` is recorded in neither table, yet its
mapping is not itself: it falls in none of the claim's three
categories. -/
theorem ascii_A_in_no_category :
    ¬ recordedMulti lowerAtA 0x41 ∧ ¬ recordedSingle lowerAtA 0x41 ∧
      lowerAtA 0x41 ≠ [0x41] := by
  refine ⟨?_, ?_, by decide⟩
  · rw [recordedMulti_iff]; decide
  · rw [recordedSingle_iff]; decide

/-- Claim C2 (amended): for every code point in range, the two recorded
categories are characterized exactly, are mutually exclusive, and a code
point is unrecorded exactly when its mapping is a single code point that
is either itself or lies below `0x80` (the ASCII exclusion of the
single-entry pass). -/
theorem classification_trichotomy (cm : Nat → List Nat) (i : Nat) (h : i < 0x110000) :
    (recordedMulti cm i ↔ (cm i).length ≠ 1) ∧
    (recordedSingle cm i ↔ (cm i).length = 1 ∧ cm i ≠ [i] ∧ 128 ≤ i) ∧
    ¬ (recordedMulti cm i ∧ recordedSingle cm i) ∧
    (¬ recordedMulti cm i ∧ ¬ recordedSingle cm i ↔
      (cm i).length = 1 ∧ (cm i = [i] ∨ i < 128)) := by
  rw [recordedMulti_iff, recordedSingle_iff]
  refine ⟨by simp [h], ?_, ?_, ?_⟩
  · constructor
    · rintro ⟨h128, _, h1, h2⟩
      exact ⟨h1, h2, h128⟩
    · rintro ⟨h1, h2, h128⟩
      exact ⟨h128, h, h1, h2⟩
  · rintro ⟨⟨_, hne⟩, _, _, h1, _⟩
    exact hne h1
  · constructor
    · rintro ⟨hm, hs⟩
      have hlen : (cm i).length = 1 := by
        by_contra hc
        exact hm ⟨h, hc⟩
      refine ⟨hlen, ?_⟩
      by_cases he : cm i = [i]
      · exact Or.inl he
      · right
        by_contra hge
        push_neg at hge
        exact hs ⟨hge, h, hlen, he⟩
    · rintro ⟨hlen, hor⟩
      constructor
      · rintro ⟨_, hne⟩
        exact hne hlen
      · rintro ⟨h128, _, _, hne⟩
        rcases hor with he | hlt
        · exact hne he
        · omega

/-- Witness for the amended claim C2 at the modelled host mapping and
code point `0x41`. -/
theorem classification_trichotomy_witness :
    0x41 < 0x110000 ∧
    ((recordedMulti lowerAtA 0x41 ↔ (lowerAtA 0x41).length ≠ 1) ∧
     (recordedSingle lowerAtA 0x41 ↔
        (lowerAtA 0x41).length = 1 ∧ lowerAtA 0x41 ≠ [0x41] ∧ 128 ≤ 0x41) ∧
     ¬ (recordedMulti lowerAtA 0x41 ∧ recordedSingle lowerAtA 0x41) ∧
     (¬ recordedMulti lowerAtA 0x41 ∧ ¬ recordedSingle lowerAtA 0x41 ↔
        (lowerAtA 0x41).length = 1 ∧ (lowerAtA 0x41 = [0x41] ∨ 0x41 < 128))) :=
  ⟨by decide, classification_trichotomy lowerAtA 0x41 (by decide)⟩

/-- Claim C3: under the host-data bound that every cased string has one to
three code points, every recorded multi entry has true length two or
three, the padded entry has exactly three slots, and every slot beyond
the true length is zero. -/
theorem multi_entry_padding (cm : Nat → List Nat)
    (hcm : ∀ i, i < 0x110000 → 1 ≤ (cm i).length ∧ (cm i).length ≤ 3) :
    ∀ i s, (i, s) ∈ multichars cm →
      (2 ≤ s.length ∧ s.length ≤ 3) ∧ (padEntry s).length = 3 ∧
        ∀ x ∈ (padEntry s).drop s.length, x = 0 := by
  intro i s hmem
  rw [mem_multichars] at hmem
  obtain ⟨hi, hcmi, hlen⟩ := hmem
  have hb := hcm i hi
  rw [hcmi] at hb
  refine ⟨by omega, ?_, ?_⟩
  · rw [padEntry_eq, List.length_append, List.length_replicate]
    omega
  · intro x hx
    rw [padEntry_eq, List.drop_left] at hx
    exact List.eq_of_mem_replicate hx

/-- Witness for claim C3 at the modelled host mapping for `U+0130`. -/
theorem multi_entry_padding_witness :
    (∀ i, i < 0x110000 → 1 ≤ (padWitnessMap i).length ∧ (padWitnessMap i).length ≤ 3) ∧
    (0x130, [0x69, 0x307]) ∈ multichars padWitnessMap ∧
    ((2 ≤ ([0x69, 0x307] : List Nat).length ∧ ([0x69, 0x307] : List Nat).length ≤ 3) ∧
      (padEntry [0x69, 0x307]).length = 3 ∧
      ∀ x ∈ (padEntry [0x69, 0x307]).drop ([0x69, 0x307] : List Nat).length, x = 0) := by
  have hb : ∀ i, i < 0x110000 →
      1 ≤ (padWitnessMap i).length ∧ (padWitnessMap i).length ≤ 3 := by
    intro i hi
    by_cases hc : i = 0x130 <;> norm_num [padWitnessMap, hc]
  have hmem : (0x130, [0x69, 0x307]) ∈ multichars padWitnessMap :=
    mem_multichars.mpr (by decide)
  exact ⟨hb, hmem, multi_entry_padding padWitnessMap hb 0x130 [0x69, 0x307] hmem⟩

/-- Claim C4: every recorded single entry has a target different from its
source and a source at or above `0x80`; in particular no code point below
`0x80` ever appears as a single entry. -/
theorem single_entry_invariant (cm : Nat → List Nat) :
    ∀ f t, (f, t) ∈ diffs cm → f ≠ t ∧ 0x80 ≤ f := by
  intro f t hmem
  rw [mem_diffs] at hmem
  exact ⟨fun he => hmem.2.2.2 he.symm, hmem.1⟩

/-- Witness for claim C4 at the modelled host mapping for `U+00FF`. -/
theorem single_entry_invariant_witness :
    ((0xFF, 0x178) : Nat × Nat) ∈ diffs singleWitnessMap ∧
      ((0xFF : Nat) ≠ 0x178 ∧ 0x80 ≤ (0xFF : Nat)) := by
  have hmem : ((0xFF, 0x178) : Nat × Nat) ∈ diffs singleWitnessMap :=
    mem_diffs.mpr (by decide)
  exact ⟨hmem, single_entry_invariant singleWitnessMap 0xFF 0x178 hmem⟩

/-- Claim C5: converting an in-range code point to a single-character
string yields exactly one code point, so the `assert(len(string) == 1)`
never fails: both checked passes and the whole checked run complete,
producing the full table output (modelled by `some`; `none` would be the
fatal abort). -/
theorem builder_assertions_never_fail (cm : Nat → List Nat) (i : Nat)
    (h : i < 0x110000) :
    (strOfCodePoint i).length = 1 ∧
    multicharsChecked cm = some (multichars cm) ∧
    diffsChecked cm = some (diffs cm) ∧
    ∀ dirname DIRNAME, genScriptChecked cm dirname DIRNAME
      = some (genScript cm dirname DIRNAME) :=
  ⟨rfl, multicharsChecked_eq cm, diffsChecked_eq cm,
    fun dirname DIRNAME => genScriptChecked_eq cm dirname DIRNAME⟩

/-- Witness for claim C5 at the self-mapping case mapping and code point
zero. -/
theorem builder_assertions_never_fail_witness :
    (0 : Nat) < 0x110000 ∧
    ((strOfCodePoint 0).length = 1 ∧
     multicharsChecked idMap = some (multichars idMap) ∧
     diffsChecked idMap = some (diffs idMap) ∧
     ∀ dirname DIRNAME, genScriptChecked idMap dirname DIRNAME
       = some (genScript idMap dirname DIRNAME)) :=
  ⟨by decide, builder_assertions_never_fail idMap 0 (by decide)⟩

/-- Claim C6: for each of the four tables, the count in the emitted size
macro equals the number of entry lines in the braced array immediately
following it. -/
theorem count_consistency (cm : Nat → List Nat) :
    (∃ n1 e1 n2 e2,
      genlowerOut cm =
        ["Multiple chars.", "// clang-format off",
         "#define NUM_LOWERCASING_MULTICHAR_ENTRIES " ++ toString (n1 : Nat),
         "const UnicodeConversionMultiChar lowercasing_multi[NUM_LOWERCASING_MULTICHAR_ENTRIES] = \x7b"]
        ++ e1 ++
        ["\x7d;", "// clang-format on", "", "Differences", "// clang-format off",
         "#define NUM_LOWERCASING_SINGLE_ENTRIES " ++ toString (n2 : Nat),
         "const UnicodeConversionSingleChar lowercasing_single[NUM_LOWERCASING_SINGLE_ENTRIES] = \x7b"]
        ++ e2 ++
        ["\x7d;", "// clang-format on"] ∧
      List.length e1 = n1 ∧ List.length e2 = n2) ∧
    (∃ n1 e1 n2 e2,
      genupperOut cm =
        ["Multiple chars.", "// clang-format off",
         "#define NUM_UPPERCASING_MULTICHAR_ENTRIES " ++ toString (n1 : Nat),
         "const UnicodeConversionMultiChar uppercasing_multi[NUM_UPPERCASING_MULTICHAR_ENTRIES] = \x7b"]
        ++ e1 ++
        ["\x7d;", "// clang-format on", "", "Differences", "// clang-format off",
         "#define NUM_UPPERCASING_SINGLE_ENTRIES " ++ toString (n2 : Nat),
         "const UnicodeConversionSingleChar uppercasing_single[NUM_UPPERCASING_SINGLE_ENTRIES] = \x7b"]
        ++ e2 ++
        ["\x7d;", "// clang-format on"] ∧
      List.length e1 = n1 ∧ List.length e2 = n2) := by
  constructor
  · exact ⟨(multichars cm).length, (multichars cm).map fmtMultiEntry,
      (diffs cm).length, (diffs cm).map fmtSingleEntry,
      genlowerOut_segments cm, by simp, by simp⟩
  · exact ⟨(multichars cm).length, (multichars cm).map fmtMultiEntry,
      (diffs cm).length, (diffs cm).map fmtSingleEntry,
      genupperOut_segments cm, by simp, by simp⟩

/-- Claim C7: in both directions, the multi-entry and single-entry lists
are strictly increasing in their source code point, being recorded in
code-point iteration order. -/
theorem tables_ascending (cm : Nat → List Nat) :
    (multichars cm).Pairwise (fun p q => p.1 < q.1) ∧
    (diffs cm).Pairwise (fun p q => p.1 < q.1) := by
  constructor
  · unfold multichars
    rw [List.pairwise_filterMap]
    refine (List.pairwise_lt_range _).imp ?_
    intro a b hab x hx y hy
    by_cases ha : (cm a).length ≠ 1
    · rw [if_pos ha, Option.mem_some_iff] at hx
      by_cases hb : (cm b).length ≠ 1
      · rw [if_pos hb, Option.mem_some_iff] at hy
        subst hx
        subst hy
        exact hab
      · rw [if_neg hb] at hy
        simp at hy
    · rw [if_neg ha] at hx
      simp at hx
  · unfold diffs
    rw [List.range'_eq_map_range, List.pairwise_filterMap, List.pairwise_map]
    refine (List.pairwise_lt_range _).imp ?_
    intro a b hab x hx y hy
    by_cases h1 : (cm (128 + a)).length = 1
    · by_cases h2 : cm (128 + a) ≠ [128 + a]
      · rw [if_pos h1, if_pos h2, Option.mem_some_iff] at hx
        by_cases h3 : (cm (128 + b)).length = 1
        · by_cases h4 : cm (128 + b) ≠ [128 + b]
          · rw [if_pos h3, if_pos h4, Option.mem_some_iff] at hy
            subst hx
            subst hy
            show 128 + a < 128 + b
            omega
          · rw [if_pos h3, if_neg h4] at hy
            simp at hy
        · rw [if_neg h3] at hy
          simp at hy
      · rw [if_pos h1, if_neg h2] at hx
        simp at hx
    · rw [if_neg h1] at hx
      simp at hx

/-- Claim C8: each script emits the multi-entry table before the
single-entry table; each table consists, in order, of a label line,
`// clang-format off`, the size macro `NUM_<DIRECTION>_<SHAPE>_ENTRIES`
with the entry count, an array declaration with exactly that many entry
lines, a closing brace line, and `// clang-format on`. -/
theorem output_structure (cm : Nat → List Nat) :
    genlowerOut cm =
      ["Multiple chars.", "// clang-format off",
       "#define NUM_LOWERCASING_MULTICHAR_ENTRIES " ++ toString (multichars cm).length,
       "const UnicodeConversionMultiChar lowercasing_multi[NUM_LOWERCASING_MULTICHAR_ENTRIES] = \x7b"]
      ++ (multichars cm).map fmtMultiEntry ++
      ["\x7d;", "// clang-format on", "", "Differences", "// clang-format off",
       "#define NUM_LOWERCASING_SINGLE_ENTRIES " ++ toString (diffs cm).length,
       "const UnicodeConversionSingleChar lowercasing_single[NUM_LOWERCASING_SINGLE_ENTRIES] = \x7b"]
      ++ (diffs cm).map fmtSingleEntry ++
      ["\x7d;", "// clang-format on"] ∧
    ((multichars cm).map fmtMultiEntry).length = (multichars cm).length ∧
    ((diffs cm).map fmtSingleEntry).length = (diffs cm).length ∧
    genupperOut cm =
      ["Multiple chars.", "// clang-format off",
       "#define NUM_UPPERCASING_MULTICHAR_ENTRIES " ++ toString (multichars cm).length,
       "const UnicodeConversionMultiChar uppercasing_multi[NUM_UPPERCASING_MULTICHAR_ENTRIES] = \x7b"]
      ++ (multichars cm).map fmtMultiEntry ++
      ["\x7d;", "// clang-format on", "", "Differences", "// clang-format off",
       "#define NUM_UPPERCASING_SINGLE_ENTRIES " ++ toString (diffs cm).length,
       "const UnicodeConversionSingleChar uppercasing_single[NUM_UPPERCASING_SINGLE_ENTRIES] = \x7b"]
      ++ (diffs cm).map fmtSingleEntry ++
      ["\x7d;", "// clang-format on"] :=
  ⟨genlowerOut_segments cm, by simp, by simp, genupperOut_segments cm⟩

/-- Claim C9: the two scripts are one routine parameterized by direction:
the lowercase embedding is the generic builder (the lowercase body with
mapping and name strings abstracted) at the lowercase names, and
substituting the uppercase mapping and the name strings
`uppercasing`/`UPPERCASING` into that same builder yields exactly the
uppercase embedding. -/
theorem scripts_equal_up_to_renaming :
    (∀ cm, genlowerOut cm = genScript cm "lowercasing" "LOWERCASING") ∧
    (∀ cm, genScript cm "uppercasing" "UPPERCASING" = genupperOut cm) :=
  ⟨fun cm => rfl, fun cm => rfl⟩

/-- Claim C10: the multi-entry pass records a code point exactly when its
mapping's length differs from one (so a zero-length mapping would be
recorded); the recorded value is the mapping itself, and the emitted slot
list is the mapping zero-padded to three slots but never truncated and
never checked against the capacity: a mapping of three or more code
points is emitted unchanged, and the padded entry has `max length 3`
slots, exceeding three for a longer mapping. -/
theorem multi_pass_characterization (cm : Nat → List Nat) :
    (∀ i, (∃ s, (i, s) ∈ multichars cm) ↔ i < 0x110000 ∧ (cm i).length ≠ 1) ∧
    (∀ i s, (i, s) ∈ multichars cm →
      s = cm i ∧
      padEntry s = s ++ List.replicate (3 - s.length) 0 ∧
      (3 ≤ s.length → padEntry s = s) ∧
      (padEntry s).length = max s.length 3) := by
  constructor
  · intro i
    exact recordedMulti_iff
  · intro i s hmem
    rw [mem_multichars] at hmem
    obtain ⟨hi, hcmi, hlen⟩ := hmem
    refine ⟨hcmi.symm, padEntry_eq s, ?_, ?_⟩
    · intro h3
      rw [padEntry_eq]
      have h0 : 3 - s.length = 0 := by omega
      simp [h0]
    · rw [padEntry_eq, List.length_append, List.length_replicate]
      omega

/-- Witness for claim C10 at a hypothetical four-code-point mapping. -/
theorem multi_pass_characterization_witness :
    ((5 : Nat), ([1, 2, 3, 4] : List Nat)) ∈ multichars longWitnessMap ∧
    (([1, 2, 3, 4] : List Nat) = longWitnessMap 5 ∧
      padEntry [1, 2, 3, 4] =
        [1, 2, 3, 4] ++ List.replicate (3 - ([1, 2, 3, 4] : List Nat).length) 0 ∧
      (3 ≤ ([1, 2, 3, 4] : List Nat).length → padEntry [1, 2, 3, 4] = [1, 2, 3, 4]) ∧
      (padEntry [1, 2, 3, 4]).length = max ([1, 2, 3, 4] : List Nat).length 3) := by
  have hmem : ((5 : Nat), ([1, 2, 3, 4] : List Nat)) ∈ multichars longWitnessMap :=
    mem_multichars.mpr (by decide)
  exact ⟨hmem, (multi_pass_characterization longWitnessMap).2 5 [1, 2, 3, 4] hmem⟩
